import Mathlib

/-!
Verification of the remote-administration execution core (wp-cli wrapper,
validation layer, command quoting and the circuit-breaker-protected bulk
operation runner) against its natural-language specification.

The Python sources are embedded shallowly:

* `PyVal` models the dynamically typed values that reach the validators
  (Python `bool` is a subclass of `int`, which the model keeps).
* `validate_positive_int` embeds `LearnDashManager._validate_positive_int`.
* `shlex_quote` embeds CPython's `shlex.quote`; `shellTokens` is a
  POSIX-subset shell tokenizer used to state the quoting properties.
* `search_posts_cmd` / `create_course_cmd` embed the command-text assembly
  of `WPCLIClient.search_posts` and `LearnDashManager.create_course`.
* `execute_result` embeds the exit-status/stderr handling of
  `WPCLIClient.execute`.
* `bulk_enroll_users` / `batch_update_lesson_content` embed the two bulk
  runners, parameterized over the delegated per-target operation.
-/

/-! ## Python value model -/

/-- A dynamically typed Python value as seen by the validation helpers.
`boolV` is kept separate because Python `bool` is a subclass of `int`. -/
inductive PyVal where
  | intV (n : Int)
  | boolV (b : Bool)
  | strV (s : String)
  | noneV
  deriving DecidableEq, Repr

/-- Python `str(value)` as used by f-string interpolation for the values in
this development. -/
def pyStr : PyVal → String
  | .intV n => toString n
  | .boolV true => "True"
  | .boolV false => "False"
  | .strV s => s
  | .noneV => "None"

/-- Python `isinstance(value, int)`: true for `int` and for `bool`, which
subclasses `int`. -/
def isInstInt : PyVal → Bool
  | .intV _ => true
  | .boolV _ => true
  | _ => false

/-- Numeric value of a Python `int` (or `bool`, where `True == 1`). -/
def pyIntVal : PyVal → Int
  | .intV n => n
  | .boolV b => if b then 1 else 0
  | _ => 0

/-- Python truthiness for the values of this model. -/
def pyTruthy : PyVal → Bool
  | .intV n => n ≠ 0
  | .boolV b => b
  | .strV s => s ≠ ""
  | .noneV => false

/-! ## Validation layer -/

/-- Embeds `LearnDashManager._validate_positive_int`: the guard is
`not isinstance(value, int) or value <= 0`, and on failure the raised
`ValueError` message is `f"{name} must be a positive integer, got {value}"`. -/
def validate_positive_int (value : PyVal) (name : String) : Except String PyVal :=
  if !(isInstInt value) || pyIntVal value ≤ 0 then
    Except.error (name ++ " must be a positive integer, got " ++ pyStr value)
  else
    Except.ok value

/-- The values `_validate_positive_int` accepts. -/
def isPyPosInt (v : PyVal) : Bool :=
  isInstInt v && 0 < pyIntVal v

/-- Embeds the list comprehension of `LearnDashManager.create_group`
(`[self._validate_positive_int(cid, f"course_ids[{i}]") for i, cid in
enumerate(course_ids)]`): elements are validated in order and the first
raised `ValueError` propagates, abandoning the rest. -/
def validate_course_ids : List PyVal → Nat → Except String (List PyVal)
  | [], _ => Except.ok []
  | v :: rest, i =>
    match validate_positive_int v ("course_ids[" ++ toString i ++ "]") with
    | Except.error e => Except.error e
    | Except.ok v' =>
      match validate_course_ids rest (i + 1) with
      | Except.error e => Except.error e
      | Except.ok vs => Except.ok (v' :: vs)

/-! ## Remote executor (`WPCLIClient.execute`) -/

/-- Python `str.strip()` whitespace set. -/
def isPySpace (c : Char) : Bool :=
  c = ' ' || c = '\t' || c = '\n' || c = '\x0d' || c = '\x0b' || c = '\x0c'

/-- Python `str.strip()`. -/
def pyStrip (cs : List Char) : List Char :=
  ((cs.dropWhile isPySpace).reverse.dropWhile isPySpace).reverse

/-- Embeds the exit-status handling of `WPCLIClient.execute`: stdout and
stderr are read and stripped; on non-zero exit status a `WPCLIError` is
raised with message `f"wp-cli command failed: {error or output}"`, where
`error or output` is Python falsy-fallback on the stripped stderr; on zero
exit the (stripped) stdout is returned. JSON decoding of the successful
output happens downstream and never raises. -/
def execute_result (exitCode : Int) (stdout stderr : List Char) :
    Except (List Char) (List Char) :=
  let output := pyStrip stdout
  let error := pyStrip stderr
  if exitCode ≠ 0 then
    Except.error (String.data "wp-cli command failed: " ++
      (if error = [] then output else error))
  else
    Except.ok output

/-! ## Helper lemmas about the validator -/

lemma vpi_ok (v : PyVal) (name : String) (h : isPyPosInt v = true) :
    validate_positive_int v name = Except.ok v := by
  simp only [isPyPosInt, Bool.and_eq_true, decide_eq_true_eq] at h
  simp [validate_positive_int, h.1, not_le.mpr h.2]

lemma vpi_err (v : PyVal) (name : String) (h : isPyPosInt v = false) :
    validate_positive_int v name =
      Except.error (name ++ " must be a positive integer, got " ++ pyStr v) := by
  simp only [isPyPosInt, Bool.and_eq_false_iff] at h
  rcases h with h | h
  · simp [validate_positive_int, h]
  · simp only [decide_eq_false_iff_not, not_lt] at h
    simp [validate_positive_int, h]

/-! ## Theorems: validator (C6, C10) -/

/-- C6: for every positive integer `n` the validator returns `n` unchanged;
for every value that is not a (Python) integer or is `≤ 0` it fails with a
`ValueError` whose message is exactly the parameter name followed by
`" must be a positive integer, got "` and the rendering of the offending
value — so the message names the parameter, contains the phrase, and
renders the value. -/
theorem validate_positive_int_correct (name : String) :
    (∀ n : Int, 0 < n →
      validate_positive_int (PyVal.intV n) name = Except.ok (PyVal.intV n)) ∧
    (∀ v : PyVal, isPyPosInt v = false →
      validate_positive_int v name =
        Except.error (name ++ " must be a positive integer, got " ++ pyStr v)) := by
  constructor
  · intro n hn
    simp [validate_positive_int, isInstInt, pyIntVal, not_le.mpr hn]
  · intro v hv
    simp only [isPyPosInt, Bool.and_eq_false_iff] at hv
    rcases hv with hv | hv
    · simp [validate_positive_int, hv]
    · simp only [decide_eq_false_iff_not, not_lt] at hv
      simp [validate_positive_int, hv]

/-- Witness for C6 at `n = 3` and at the offending value `-1` with parameter
`course_id`: the failure message contains "must be a positive integer" and
"-1". -/
theorem validate_positive_int_correct_witness :
    validate_positive_int (PyVal.intV 3) "course_id" = Except.ok (PyVal.intV 3) ∧
    validate_positive_int (PyVal.intV (-1)) "course_id" =
      Except.error "course_id must be a positive integer, got -1" := by
  refine ⟨(validate_positive_int_correct "course_id").1 3 (by decide), ?_⟩
  have h := (validate_positive_int_correct "course_id").2 (PyVal.intV (-1)) (by decide)
  exact h.trans rfl

/-- C10: the positive-integer validator accepts the boolean `True`
(`isinstance(True, int)` holds and `True > 0`), returning `True` itself,
whose numeric value is 1. -/
theorem validate_positive_int_accepts_true :
    validate_positive_int (PyVal.boolV true) "user_id" =
      Except.ok (PyVal.boolV true) ∧
    pyIntVal (PyVal.boolV true) = 1 :=
  ⟨rfl, rfl⟩

/-! ## Theorems: remote executor error handling (C5) -/

/-- C5 counterexample: at exit status 1 with stderr `"boom"` and empty
stdout, the raised error's message is not the captured stderr text itself —
it is the stderr text behind the fixed prefix `"wp-cli command failed: "`. -/
theorem execute_error_message_not_stderr :
    execute_result 1 (String.data "") (String.data "boom") =
      Except.error (String.data "wp-cli command failed: boom") ∧
    execute_result 1 (String.data "") (String.data "boom") ≠
      Except.error (String.data "boom") := by
  refine ⟨rfl, fun h => ?_⟩
  have h' := (rfl :
    execute_result 1 (String.data "") (String.data "boom") =
      Except.error (String.data "wp-cli command failed: boom")).symm.trans h
  exact absurd (Except.error.inj h') (by decide)

/-- C5 amended: the executor fails exactly on non-zero exit status; on
failure the message is `"wp-cli command failed: "` followed by the captured
(stripped) stderr text, falling back to the captured stdout text when the
stripped stderr is empty; on zero exit status it returns the stdout without
raising. -/
theorem execute_error_iff_nonzero_exit (exitCode : Int) (stdout stderr : List Char) :
    (exitCode = 0 →
      execute_result exitCode stdout stderr = Except.ok (pyStrip stdout)) ∧
    (exitCode ≠ 0 →
      execute_result exitCode stdout stderr =
        Except.error (String.data "wp-cli command failed: " ++
          (if pyStrip stderr = [] then pyStrip stdout else pyStrip stderr))) := by
  constructor
  · intro h; simp [execute_result, h]
  · intro h; simp [execute_result, h]

/-- Witness for C5 amended: at exit 0 the stdout is returned; at exit 1 with
stderr empty the message falls back to stdout. -/
theorem execute_error_iff_nonzero_exit_witness :
    execute_result 0 (String.data "ok") (String.data "") =
      Except.ok (String.data "ok") ∧
    execute_result 1 (String.data "out text") (String.data " ") =
      Except.error (String.data "wp-cli command failed: out text") := by
  constructor
  · exact ((execute_error_iff_nonzero_exit 0 (String.data "ok") (String.data "")).1 rfl).trans rfl
  · exact ((execute_error_iff_nonzero_exit 1 (String.data "out text")
      (String.data " ")).2 (by decide)).trans (by rfl)

/-! ## Theorems: collection validation (C7) -/

/-- C7 counterexample: validating the course-id collection `[-1, -2]`
surfaces only the first violation — the error message reports element 0 and
does not mention the second offending value `-2` at all, so the violations
are not surfaced together as a set. -/
theorem validate_course_ids_only_first_violation :
    validate_course_ids [PyVal.intV (-1), PyVal.intV (-2)] 0 =
      Except.error "course_ids[0] must be a positive integer, got -1" ∧
    ¬ (String.data "-2" <:+:
        String.data "course_ids[0] must be a positive integer, got -1") := by
  exact ⟨rfl, by decide⟩

/-- C7 amended: collection validation examines elements in order and fails
on the first violation; the resulting error names only the first offending
element (its index and value), and any later violations are not examined or
reported. -/
theorem validate_course_ids_first_error (good : List PyVal)
    (hgood : ∀ u ∈ good, isPyPosInt u = true) (bad : PyVal)
    (hbad : isPyPosInt bad = false) (rest : List PyVal) (i : Nat) :
    validate_course_ids (good ++ bad :: rest) i =
      Except.error (("course_ids[" ++ toString (i + good.length) ++ "]") ++
        " must be a positive integer, got " ++ pyStr bad) := by
  induction good generalizing i with
  | nil =>
    simp only [List.nil_append, validate_course_ids, List.length_nil, Nat.add_zero]
    rw [vpi_err bad _ hbad]
  | cons u us ih =>
    have hu : isPyPosInt u = true := hgood u (List.mem_cons_self u us)
    have hus : ∀ v ∈ us, isPyPosInt v = true := fun v hv => hgood v (List.mem_cons_of_mem u hv)
    have h2 : i + (u :: us).length = (i + 1) + us.length := by
      simp [List.length_cons]; omega
    simp only [List.cons_append, validate_course_ids, List.append_eq, h2]
    rw [vpi_ok u _ hu, ih hus (i + 1)]

/-- Witness for C7 amended: with a valid element followed by two bad ones,
only the first bad element (index 1, value `-2`) is reported. -/
theorem validate_course_ids_first_error_witness :
    validate_course_ids [PyVal.intV 7, PyVal.intV (-2), PyVal.strV "x"] 0 =
      Except.error "course_ids[1] must be a positive integer, got -2" := by
  have h := validate_course_ids_first_error [PyVal.intV 7]
    (by intro u hu; simp at hu; subst hu; decide)
    (PyVal.intV (-2)) (by decide) [PyVal.strV "x"] 0
  exact h.trans rfl

/-! ## Shell tokenizer and `shlex.quote` -/

/-- A token as a POSIX shell would see it: a word, or an operator character
the shell interprets (command separators, pipes, redirections, grouping). -/
inductive ShTok where
  | word (cs : List Char)
  | op (c : Char)
  deriving DecidableEq, Repr

/-- Tokenizer mode: outside quotes, inside single quotes, inside double
quotes. -/
inductive ShMode where
  | normal
  | single
  | double
  deriving DecidableEq, Repr

/-- Blank characters that separate shell words. -/
def isShellSpace (c : Char) : Bool :=
  c = ' ' || c = '\t' || c = '\n'

/-- Shell operator characters (command separators and control operators). -/
def isShellOp (c : Char) : Bool :=
  c = ';' || c = '&' || c = '|' || c = '<' || c = '>' || c = '(' || c = ')'

/-- Characters starting an expansion (`$` and backquote `\x60`). -/
def isShellExpand (c : Char) : Bool :=
  c = '$' || c = '\x60'

/-- The escape character `\`. -/
def isShellEscape (c : Char) : Bool :=
  c = '\\'

/-- A POSIX-subset shell tokenizer. `acc` is the word being accumulated and
`inTok` records whether a word is in progress. Operator characters outside
quotes become `ShTok.op` tokens; expansion or escape characters in an
interpreted position, and unterminated quotes, yield `none` (the input is
not a plain sequence of literal words). Inside single quotes every
character is literal; inside double quotes `$`, backquote and `\` are
interpreted and everything else is literal. -/
def shellScan : List Char → ShMode → List Char → Bool → Option (List ShTok)
  | [], ShMode.normal, acc, inTok =>
    if inTok then some [ShTok.word acc] else some []
  | [], ShMode.single, _, _ => none
  | [], ShMode.double, _, _ => none
  | c :: cs, ShMode.normal, acc, inTok =>
    if isShellSpace c then
      if inTok then
        Option.map (fun ts => ShTok.word acc :: ts) (shellScan cs ShMode.normal [] false)
      else
        shellScan cs ShMode.normal [] false
    else if c = '\'' then shellScan cs ShMode.single acc true
    else if c = '"' then shellScan cs ShMode.double acc true
    else if isShellOp c then
      if inTok then
        Option.map (fun ts => ShTok.word acc :: ShTok.op c :: ts)
          (shellScan cs ShMode.normal [] false)
      else
        Option.map (fun ts => ShTok.op c :: ts) (shellScan cs ShMode.normal [] false)
    else if isShellExpand c || isShellEscape c then none
    else shellScan cs ShMode.normal (acc ++ [c]) true
  | c :: cs, ShMode.single, acc, inTok =>
    if c = '\'' then shellScan cs ShMode.normal acc inTok
    else shellScan cs ShMode.single (acc ++ [c]) inTok
  | c :: cs, ShMode.double, acc, inTok =>
    if c = '"' then shellScan cs ShMode.normal acc inTok
    else if isShellExpand c || isShellEscape c then none
    else shellScan cs ShMode.double (acc ++ [c]) inTok

/-- Tokenize a whole command line. -/
def shellTokens (cs : List Char) : Option (List ShTok) :=
  shellScan cs ShMode.normal [] false

/-- The character class CPython's `shlex.quote` leaves unquoted: the
complement of `_find_unsafe`: ASCII letters, digits, and the characters
`_ @ % + = : , .` as well as slash and hyphen. -/
def shlexSafeChar (c : Char) : Bool :=
  ('a' ≤ c && c ≤ 'z') || ('A' ≤ c && c ≤ 'Z') || ('0' ≤ c && c ≤ '9') ||
  c = '_' || c = '@' || c = '%' || c = '+' || c = '=' || c = ':' ||
  c = ',' || c = '.' || c = '/' || c = '-'

/-- `s.replace("'", "'\"'\"'")`: each single quote becomes
close-quote, a double-quoted `'`, reopen-quote. -/
def sqReplace : List Char → List Char
  | [] => []
  | c :: cs =>
    if c = '\'' then '\'' :: '"' :: '\'' :: '"' :: '\'' :: sqReplace cs
    else c :: sqReplace cs

/-- Embeds CPython's `shlex.quote` (used by `LearnDashManager` for every
interpolated string value): the empty string becomes `''`, a string of
safe characters is returned unchanged, anything else is wrapped in single
quotes with embedded single quotes replaced by `'"'"'`. -/
def shlex_quote (s : List Char) : List Char :=
  if s = [] then ['\'', '\'']
  else if s.all shlexSafeChar then s
  else '\'' :: (sqReplace s ++ ['\''])

/-! ## Tokenizer lemmas -/

/-- A `shlex`-safe character is never one the tokenizer interprets. -/
lemma safe_not_special (c : Char) (h : shlexSafeChar c = true) :
    isShellSpace c = false ∧ ¬(c = '\'') ∧ ¬(c = '"') ∧ isShellOp c = false ∧
    isShellExpand c = false ∧ isShellEscape c = false := by
  refine ⟨?_, ?_, ?_, ?_, ?_, ?_⟩
  · cases hs : isShellSpace c
    · rfl
    · exfalso
      simp only [isShellSpace, Bool.or_eq_true, decide_eq_true_eq] at hs
      rcases hs with (rfl | rfl) | rfl <;> exact absurd h (by decide)
  · intro hc; subst hc; exact absurd h (by decide)
  · intro hc; subst hc; exact absurd h (by decide)
  · cases hs : isShellOp c
    · rfl
    · exfalso
      simp only [isShellOp, Bool.or_eq_true, decide_eq_true_eq] at hs
      rcases hs with (((((rfl | rfl) | rfl) | rfl) | rfl) | rfl) | rfl <;>
        exact absurd h (by decide)
  · cases hs : isShellExpand c
    · rfl
    · exfalso
      simp only [isShellExpand, Bool.or_eq_true, decide_eq_true_eq] at hs
      rcases hs with rfl | rfl
      · exact absurd h (by decide)
      · exact absurd h (by decide)
  · cases hs : isShellEscape c
    · rfl
    · exfalso
      simp only [isShellEscape, decide_eq_true_eq] at hs
      subst hs; exact absurd h (by decide)

/-- Scanning a run of safe characters in normal mode extends the current
word with exactly those characters. -/
lemma scan_safe_run (s : List Char) :
    ∀ (rest acc : List Char), s.all shlexSafeChar = true →
      shellScan (s ++ rest) ShMode.normal acc true =
        shellScan rest ShMode.normal (acc ++ s) true := by
  induction s with
  | nil => intro rest acc _; simp
  | cons c cs ih =>
    intro rest acc h
    simp only [List.all_cons, Bool.and_eq_true] at h
    obtain ⟨h1, h2⟩ := h
    obtain ⟨hsp, hq, hdq, hop, hex, hbs⟩ := safe_not_special c h1
    simp only [List.cons_append, shellScan, hsp, hq, hdq, hop, hex, hbs,
      Bool.false_eq_true, if_false, Bool.or_self, ite_false, List.append_eq]
    rw [ih rest (acc ++ [c]) h2]
    simp

/-- Scanning the single-quote encoding of `s` followed by a closing quote
appends exactly `s` to the current word and returns to normal mode. -/
lemma scan_sq (s : List Char) :
    ∀ (rest acc : List Char),
      shellScan (sqReplace s ++ ('\'' :: rest)) ShMode.single acc true =
        shellScan rest ShMode.normal (acc ++ s) true := by
  induction s with
  | nil => intro rest acc; simp [sqReplace, shellScan]
  | cons c cs ih =>
    intro rest acc
    by_cases hc : c = '\''
    · subst hc
      have hstep :
          shellScan (sqReplace ('\'' :: cs) ++ ('\'' :: rest)) ShMode.single acc true =
            shellScan (sqReplace cs ++ ('\'' :: rest)) ShMode.single (acc ++ ['\'']) true := rfl
      rw [hstep, ih rest (acc ++ ['\''])]
      simp
    · have hstep :
          shellScan (sqReplace (c :: cs) ++ ('\'' :: rest)) ShMode.single acc true =
            shellScan (sqReplace cs ++ ('\'' :: rest)) ShMode.single (acc ++ [c]) true := by
        simp only [sqReplace, if_neg hc, List.cons_append, shellScan]
      rw [hstep, ih rest (acc ++ [c])]
      simp

/-- The quoted form of `s` inserted in normal mode contributes exactly the
characters of `s` to the current word. -/
lemma scan_quote (s : List Char) (rest acc : List Char) :
    shellScan (shlex_quote s ++ rest) ShMode.normal acc true =
      shellScan rest ShMode.normal (acc ++ s) true := by
  by_cases h0 : s = []
  · subst h0
    show shellScan ('\'' :: '\'' :: rest) ShMode.normal acc true = _
    have hstep : shellScan ('\'' :: '\'' :: rest) ShMode.normal acc true =
        shellScan rest ShMode.normal acc true := rfl
    rw [hstep]; simp
  · by_cases hsafe : s.all shlexSafeChar = true
    · have hq1 : shlex_quote s = s := by simp [shlex_quote, h0, hsafe]
      rw [hq1, scan_safe_run s rest acc hsafe]
    · have hq1 : shlex_quote s = '\'' :: (sqReplace s ++ ['\'']) := by
        simp [shlex_quote, h0, hsafe]
      rw [hq1]
      have hstep :
          shellScan (('\'' :: (sqReplace s ++ ['\''])) ++ rest) ShMode.normal acc true =
            shellScan (sqReplace s ++ ('\'' :: rest)) ShMode.single acc true := by
        simp only [List.cons_append, List.append_assoc, List.singleton_append]
        rfl
      rw [hstep, scan_sq s rest acc]

/-- Starting a word on a safe character. -/
lemma scan_char_start (c : Char) (h : shlexSafeChar c = true) (cs : List Char) :
    shellScan (c :: cs) ShMode.normal [] false = shellScan cs ShMode.normal [c] true := by
  obtain ⟨hsp, hq, hdq, hop, hex, hbs⟩ := safe_not_special c h
  simp only [shellScan, hsp, hq, hdq, hop, hex, hbs, Bool.false_eq_true, if_false,
    Bool.or_self, ite_false, List.nil_append]

/-- A non-empty run of safe characters begins a word. -/
lemma scan_word_start (w rest : List Char) (hw : w ≠ []) (hsafe : w.all shlexSafeChar = true) :
    shellScan (w ++ rest) ShMode.normal [] false = shellScan rest ShMode.normal w true := by
  cases w with
  | nil => exact absurd rfl hw
  | cons c cs =>
    simp only [List.all_cons, Bool.and_eq_true] at hsafe
    rw [List.cons_append, scan_char_start c hsafe.1 (cs ++ rest),
      scan_safe_run cs rest [c] hsafe.2]
    simp

/-- A blank ends the word in progress. -/
lemma scan_space (rest acc : List Char) :
    shellScan (' ' :: rest) ShMode.normal acc true =
      Option.map (fun ts => ShTok.word acc :: ts) (shellScan rest ShMode.normal [] false) := rfl

/-- End of input ends the word in progress. -/
lemma scan_end (acc : List Char) :
    shellScan [] ShMode.normal acc true = some [ShTok.word acc] := rfl

/-- A quoted value at the end of the input closes the current word with
exactly the value's characters. -/
lemma scan_quote_end (s acc : List Char) :
    shellScan (shlex_quote s) ShMode.normal acc true = some [ShTok.word (acc ++ s)] := by
  have h := scan_quote s [] acc
  rw [List.append_nil] at h
  rw [h]
  exact scan_end (acc ++ s)

/-- C2: for every string `s` — including strings containing shell
metacharacters (backquote, `$()`, `;`, `"`, newline) — quoting `s` with
`shlex.quote` and tokenizing the result with the shell-token parser yields
exactly one token equal to `s`: the round-trip `unquote(quote(s)) == s`
holds for all `s`. -/
theorem shlex_quote_roundtrip (s : List Char) :
    shellTokens (shlex_quote s) = some [ShTok.word s] := by
  by_cases h0 : s = []
  · subst h0; rfl
  · by_cases hsafe : s.all shlexSafeChar = true
    · have hq1 : shlex_quote s = s := by simp [shlex_quote, h0, hsafe]
      rw [shellTokens, hq1]
      have h := scan_word_start s [] h0 hsafe
      rw [List.append_nil] at h
      rw [h]
      exact scan_end s
    · have hq1 : shlex_quote s = '\'' :: (sqReplace s ++ ['\'']) := by
        simp [shlex_quote, h0, hsafe]
      rw [shellTokens, hq1]
      have hstep : shellScan ('\'' :: (sqReplace s ++ ['\''])) ShMode.normal [] false =
          shellScan (sqReplace s ++ ('\'' :: [])) ShMode.single [] true := rfl
      rw [hstep, scan_sq s [] []]
      exact scan_end s

/-! ## Command assembly (`search_posts`, `create_course`) -/

/-- Embeds the command assembly of `WPCLIClient.search_posts`:
`f"post list --post_type={post_type} --s='{search}'"` — the raw search
string is interpolated between literal single quotes with no escaping, and
`post_type` is interpolated with no quoting at all. -/
def search_posts_cmd (search post_type : List Char) : List Char :=
  String.data "post list --post_type=" ++ post_type ++
    String.data " --s='" ++ search ++ ['\'']

/-- Embeds the command assembly of `LearnDashManager.create_course`:
`f'post create --post_type=sfwd-courses --post_title={shlex.quote(title)}
--post_status={status}'`, plus ` --post_content={shlex.quote(content)}`
when `content` is truthy (non-empty). -/
def create_course_cmd (title status content : List Char) : List Char :=
  let cmd := String.data "post create --post_type=sfwd-courses --post_title=" ++
    shlex_quote title ++ String.data " --post_status=" ++ status
  if content = [] then cmd
  else cmd ++ String.data " --post_content=" ++ shlex_quote content

/-! ## Theorems: quoting of interpolated values (C1) -/

/-- C1 counterexample: not every operation passes its untrusted string
through the shell-safe quoting step. `WPCLIClient.search_posts` wraps the
raw search value in literal single quotes; for the search value
`'; rm -rf /; echo '` the assembled command tokenizes with `rm -rf /` as a
separate command after a `;` operator, not as one argument token holding
the search string. -/
theorem search_posts_injection :
    shellTokens (search_posts_cmd (String.data "'; rm -rf /; echo '") (String.data "post")) =
      some [ShTok.word (String.data "post"), ShTok.word (String.data "list"),
        ShTok.word (String.data "--post_type=post"), ShTok.word (String.data "--s="),
        ShTok.op ';', ShTok.word (String.data "rm"), ShTok.word (String.data "-rf"),
        ShTok.word (String.data "/"), ShTok.op ';', ShTok.word (String.data "echo"),
        ShTok.word []] ∧
    some [ShTok.word (String.data "post"), ShTok.word (String.data "list"),
        ShTok.word (String.data "--post_type=post"), ShTok.word (String.data "--s="),
        ShTok.op ';', ShTok.word (String.data "rm"), ShTok.word (String.data "-rf"),
        ShTok.word (String.data "/"), ShTok.op ';', ShTok.word (String.data "echo"),
        ShTok.word []] ≠
      some [ShTok.word (String.data "post"), ShTok.word (String.data "list"),
        ShTok.word (String.data "--post_type=post"),
        ShTok.word (String.data "--s='; rm -rf /; echo '")] := by
  exact ⟨rfl, by decide⟩

/-- A run of safe characters ends the input as part of the current word. -/
lemma scan_word_end (s acc : List Char) (hs : s.all shlexSafeChar = true) :
    shellScan s ShMode.normal acc true = some [ShTok.word (acc ++ s)] := by
  have h := scan_safe_run s [] acc hs
  rw [List.append_nil] at h
  rw [h]
  exact scan_end (acc ++ s)

/-- C1 amended: the LearnDash builder passes every interpolated string value
through `shlex.quote`, so for arbitrary `title` and `content` (including
quote characters, backquotes, `$()`, semicolons and newlines) the assembled
`create_course` command tokenizes into exactly the fixed static tokens with
the title and content confined to single argument words — no new tokens,
separators, subshells or redirections. (`WPCLIClient.search_posts`, by
contrast, concatenates its search value unescaped; see the counterexample.) -/
theorem create_course_quotes_strings (title content status : List Char)
    (hst : status = String.data "publish" ∨ status = String.data "draft" ∨
      status = String.data "private") :
    shellTokens (create_course_cmd title status content) =
      some (ShTok.word (String.data "post") :: ShTok.word (String.data "create") ::
        ShTok.word (String.data "--post_type=sfwd-courses") ::
        ShTok.word (String.data "--post_title=" ++ title) ::
        ShTok.word (String.data "--post_status=" ++ status) ::
        (if content = [] then [] else
          [ShTok.word (String.data "--post_content=" ++ content)])) := by
  have hsf : status.all shlexSafeChar = true := by
    rcases hst with rfl | rfl | rfl <;> decide
  by_cases hc : content = []
  · subst hc
    have E0 : create_course_cmd title status [] =
        String.data "post create --post_type=sfwd-courses --post_title=" ++
          shlex_quote title ++ String.data " --post_status=" ++ status := rfl
    have E1 : create_course_cmd title status [] =
        String.data "post" ++ ' ' :: (String.data "create" ++ ' ' ::
          (String.data "--post_type=sfwd-courses" ++ ' ' ::
            (String.data "--post_title=" ++ (shlex_quote title ++ ' ' ::
              (String.data "--post_status=" ++ status))))) := by
      rw [E0]
      simp only [List.append_assoc]
      rfl
    rw [shellTokens, E1]
    rw [scan_word_start (String.data "post") _ (by decide) (by decide), scan_space]
    rw [scan_word_start (String.data "create") _ (by decide) (by decide), scan_space]
    rw [scan_word_start (String.data "--post_type=sfwd-courses") _ (by decide) (by decide),
      scan_space]
    rw [scan_word_start (String.data "--post_title=") _ (by decide) (by decide)]
    rw [scan_quote title _ _, scan_space]
    rw [scan_word_start (String.data "--post_status=") _ (by decide) (by decide)]
    rw [scan_word_end status (String.data "--post_status=") hsf]
    simp
  · have E0 : create_course_cmd title status content =
        String.data "post create --post_type=sfwd-courses --post_title=" ++
          shlex_quote title ++ String.data " --post_status=" ++ status ++
          String.data " --post_content=" ++ shlex_quote content := by
      simp only [create_course_cmd, if_neg hc]
    have E1 : create_course_cmd title status content =
        String.data "post" ++ ' ' :: (String.data "create" ++ ' ' ::
          (String.data "--post_type=sfwd-courses" ++ ' ' ::
            (String.data "--post_title=" ++ (shlex_quote title ++ ' ' ::
              (String.data "--post_status=" ++ (status ++ ' ' ::
                (String.data "--post_content=" ++ shlex_quote content))))))) := by
      rw [E0]
      simp only [List.append_assoc]
      rfl
    rw [shellTokens, E1]
    rw [scan_word_start (String.data "post") _ (by decide) (by decide), scan_space]
    rw [scan_word_start (String.data "create") _ (by decide) (by decide), scan_space]
    rw [scan_word_start (String.data "--post_type=sfwd-courses") _ (by decide) (by decide),
      scan_space]
    rw [scan_word_start (String.data "--post_title=") _ (by decide) (by decide)]
    rw [scan_quote title _ _]
    rw [scan_space]
    rw [scan_word_start (String.data "--post_status=") _ (by decide) (by decide)]
    rw [scan_safe_run status _ _ hsf, scan_space]
    rw [scan_word_start (String.data "--post_content=") _ (by decide) (by decide)]
    rw [scan_quote_end content (String.data "--post_content=")]
    simp [hc]

/-- Witness for C1 amended: building the course-creation command with the
spec's injection title `Test"; rm -rf /; echo "` and status `draft` yields
exactly the five static tokens with the whole title inside one argument
word. -/
theorem create_course_quotes_strings_witness :
    shellTokens (create_course_cmd (String.data "Test\"; rm -rf /; echo \"")
        (String.data "draft") []) =
      some [ShTok.word (String.data "post"), ShTok.word (String.data "create"),
        ShTok.word (String.data "--post_type=sfwd-courses"),
        ShTok.word (String.data "--post_title=Test\"; rm -rf /; echo \""),
        ShTok.word (String.data "--post_status=draft")] := by
  have h := create_course_quotes_strings (String.data "Test\"; rm -rf /; echo \"") []
    (String.data "draft") (Or.inr (Or.inl rfl))
  exact h.trans (by decide)

/-! ## Bulk operation runner: `bulk_enroll_users` -/

/-- The mutable loop state of `bulk_enroll_users`: the counters of the
`results` dict plus the `consecutive_failures` counter. -/
structure EnrollState where
  enrolled : Nat
  failed : Nat
  errors : List (PyVal × String)
  consec : Nat
  aborted : Bool
  deriving DecidableEq, Repr

/-- The `results` dict returned by `bulk_enroll_users`. -/
structure EnrollReport where
  totalUsers : Nat
  enrolled : Nat
  failed : Nat
  errors : List (PyVal × String)
  aborted : Bool
  deriving DecidableEq, Repr

/-- One iteration of the `for` body of `bulk_enroll_users`, before the
circuit-breaker check. The delegated `self.enroll_user` call (with the
remote layer folded in) is the parameter `enroll`: `Except.error e` models
a raised exception with message `e`, `Except.ok (b, err)` a returned dict
with `result.get("enrolled") = b` and `result.get("error") = err`. -/
def enroll_step (enroll : PyVal → Except String (Bool × Option String))
    (i : Nat) (uid : PyVal) (st : EnrollState) : EnrollState :=
  match validate_positive_int uid ("user_ids[" ++ toString i ++ "]") with
  | Except.error e =>
    { st with
        failed := st.failed + 1
        errors := st.errors ++ [(uid, e)]
        consec := st.consec + 1 }
  | Except.ok v =>
    match enroll v with
    | Except.ok (true, _) =>
      { st with enrolled := st.enrolled + 1, consec := 0 }
    | Except.ok (false, err) =>
      { st with
          failed := st.failed + 1
          errors := st.errors ++ [(v, err.getD "Unknown error")]
          consec := st.consec + 1 }
    | Except.error e =>
      { st with
          failed := st.failed + 1
          errors := st.errors ++ [(v, e)]
          consec := st.consec + 1 }

/-- The `for` loop of `bulk_enroll_users` with the trailing circuit-breaker
check: after every iteration, `if consecutive_failures >= 5` set
`aborted = True` and `break` — the remaining targets are left unprocessed
and nothing about them is recorded. -/
def bulk_enroll_loop (enroll : PyVal → Except String (Bool × Option String)) :
    List PyVal → Nat → EnrollState → EnrollState
  | [], _, st => st
  | uid :: rest, i, st =>
    let st' := enroll_step enroll i uid st
    if 5 ≤ st'.consec then { st' with aborted := true }
    else bulk_enroll_loop enroll rest (i + 1) st'

/-- Embeds `LearnDashManager.bulk_enroll_users`: validate `course_id`
upfront, reject an empty list, then run the circuit-breaker loop and return
the `results` dict. -/
def bulk_enroll_users (enroll : PyVal → Except String (Bool × Option String))
    (userIds : List PyVal) (courseId : PyVal) : Except String EnrollReport :=
  match validate_positive_int courseId "course_id" with
  | Except.error e => Except.error e
  | Except.ok _ =>
    if userIds = [] then Except.error "user_ids cannot be empty"
    else
      let st := bulk_enroll_loop enroll userIds 0 ⟨0, 0, [], 0, false⟩
      Except.ok ⟨userIds.length, st.enrolled, st.failed, st.errors, st.aborted⟩

/-! ## Bulk operation runner: `batch_update_lesson_content` -/

/-- One element of the `updates` list: `isDict` records whether the element
is a dict at all, `lessonId` what `update_dict.get("lesson_id")` returns
(`none` for a missing key). -/
structure UpdateItem where
  isDict : Bool
  lessonId : Option PyVal
  deriving DecidableEq, Repr

/-- Status of one entry of `results["details"]`. -/
inductive DetailStatus where
  | success
  | failed
  | notAttempted
  deriving DecidableEq, Repr

/-- One entry of `results["details"]`. -/
structure Detail where
  lessonId : PyVal
  status : DetailStatus
  deriving DecidableEq, Repr

/-- The mutable loop state of `batch_update_lesson_content`. -/
structure BatchState where
  successful : Nat
  failed : Nat
  details : List Detail
  consec : Nat
  aborted : Bool
  deriving DecidableEq, Repr

/-- The `results` dict returned by `batch_update_lesson_content`. -/
structure BatchReport where
  totalUpdates : Nat
  successful : Nat
  failed : Nat
  details : List Detail
  aborted : Bool
  deriving DecidableEq, Repr

/-- The number of `not_attempted` entries in a details list. -/
def countNA (ds : List Detail) : Nat :=
  List.countP (fun d => decide (d.status = DetailStatus.notAttempted)) ds

/-- The abort path that appends a `not_attempted` entry for every remaining
update (`for remaining_update in updates[i+1:]`). The handler calls
`remaining_update.get("lesson_id")`, which raises `AttributeError` when the
element is not a dict. -/
def mark_remaining : List UpdateItem → Except String (List Detail)
  | [] => Except.ok []
  | it :: rest =>
    if it.isDict then
      match mark_remaining rest with
      | Except.error e => Except.error e
      | Except.ok ds =>
        Except.ok (⟨(it.lessonId).getD PyVal.noneV, DetailStatus.notAttempted⟩ :: ds)
    else Except.error "AttributeError: get"

/-- The `try` block of one iteration of `batch_update_lesson_content`: a
non-dict element or a missing/falsy `lesson_id` raises `ValueError`,
otherwise the update is delegated (parameter `upd` models
`self.update_lesson`). -/
def batch_try (upd : UpdateItem → Except String Unit) (i : Nat) (it : UpdateItem) :
    Except String Unit :=
  if it.isDict then
    match it.lessonId with
    | none => Except.error ("updates[" ++ toString i ++ "] missing lesson_id")
    | some v =>
      if pyTruthy v then upd it
      else Except.error ("updates[" ++ toString i ++ "] missing lesson_id")
  else Except.error ("updates[" ++ toString i ++ "] must be a dict")

/-- State change on a successful update: bump `successful`, append a
success detail, reset the consecutive-failure counter. -/
def batch_succ_state (st : BatchState) (it : UpdateItem) : BatchState :=
  { st with
    successful := st.successful + 1
    details := st.details ++ [⟨(it.lessonId).getD PyVal.noneV, DetailStatus.success⟩]
    consec := 0 }

/-- State change in the `except` handler: bump `failed`, append a failed
detail rendered from `update_dict.get("lesson_id", "unknown")`, bump the
consecutive-failure counter. -/
def batch_fail_state (st : BatchState) (it : UpdateItem) : BatchState :=
  { st with
    failed := st.failed + 1
    details := st.details ++
      [⟨(it.lessonId).getD (PyVal.strV "unknown"), DetailStatus.failed⟩]
    consec := st.consec + 1 }

/-- The `for` loop of `batch_update_lesson_content`. The `except` handler
records a failure and — only there — checks the circuit breaker, marking
all remaining updates `not_attempted` before breaking. The handler itself
calls `update_dict.get` and therefore raises `AttributeError` (escaping
the runner) when the element is not a dict. -/
def batch_update_loop (upd : UpdateItem → Except String Unit) :
    List UpdateItem → Nat → BatchState → Except String BatchState
  | [], _, st => Except.ok st
  | it :: rest, i, st =>
    match batch_try upd i it with
    | Except.ok _ => batch_update_loop upd rest (i + 1) (batch_succ_state st it)
    | Except.error _ =>
      if it.isDict then
        if 5 ≤ (batch_fail_state st it).consec then
          match mark_remaining rest with
          | Except.error e => Except.error e
          | Except.ok ds =>
            Except.ok { batch_fail_state st it with
              aborted := true, details := (batch_fail_state st it).details ++ ds }
        else batch_update_loop upd rest (i + 1) (batch_fail_state st it)
      else Except.error "AttributeError: get"

/-- Embeds `LearnDashManager.batch_update_lesson_content`: reject an empty
list, run the loop, return the `results` dict. -/
def batch_update_lesson_content (upd : UpdateItem → Except String Unit)
    (updates : List UpdateItem) : Except String BatchReport :=
  if updates = [] then Except.error "updates cannot be empty"
  else
    match batch_update_loop upd updates 0 ⟨0, 0, [], 0, false⟩ with
    | Except.error e => Except.error e
    | Except.ok st =>
      Except.ok ⟨updates.length, st.successful, st.failed, st.details, st.aborted⟩

/-! ## Helper lemmas: enrollment step and loop -/

/-- Whether one target of `bulk_enroll_users` succeeds: its identifier
validates and the delegated enrollment returns `enrolled = True`. -/
def target_succeeds (enroll : PyVal → Except String (Bool × Option String))
    (uid : PyVal) : Bool :=
  isPyPosInt uid &&
    (match enroll uid with
     | Except.ok (true, _) => true
     | _ => false)

lemma enroll_step_succ (enroll : PyVal → Except String (Bool × Option String))
    (i : Nat) (uid : PyVal) (st : EnrollState)
    (h : target_succeeds enroll uid = true) :
    enroll_step enroll i uid st = { st with enrolled := st.enrolled + 1, consec := 0 } := by
  simp only [target_succeeds, Bool.and_eq_true] at h
  obtain ⟨h1, h2⟩ := h
  cases he : enroll uid with
  | error e => rw [he] at h2; simp at h2
  | ok p =>
    obtain ⟨b, err⟩ := p
    cases b
    · rw [he] at h2; simp at h2
    · simp only [enroll_step, vpi_ok uid _ h1, he]

lemma enroll_step_fail (enroll : PyVal → Except String (Bool × Option String))
    (i : Nat) (uid : PyVal) (st : EnrollState)
    (h : target_succeeds enroll uid = false) :
    (enroll_step enroll i uid st).enrolled = st.enrolled ∧
    (enroll_step enroll i uid st).failed = st.failed + 1 ∧
    (enroll_step enroll i uid st).consec = st.consec + 1 ∧
    (enroll_step enroll i uid st).errors.length = st.errors.length + 1 ∧
    (enroll_step enroll i uid st).aborted = st.aborted := by
  simp only [target_succeeds, Bool.and_eq_false_iff] at h
  cases hp : isPyPosInt uid
  · simp only [enroll_step, vpi_err uid _ hp]
    simp
  · have h2 : (match enroll uid with
        | Except.ok (true, _) => true
        | _ => false) = false := by
      rcases h with h | h
      · rw [hp] at h; cases h
      · exact h
    simp only [enroll_step, vpi_ok uid _ hp]
    cases he : enroll uid with
    | error e => simp
    | ok p =>
      obtain ⟨b, err⟩ := p
      cases b
      · simp
      · rw [he] at h2; simp at h2

lemma enroll_step_total (enroll : PyVal → Except String (Bool × Option String))
    (i : Nat) (uid : PyVal) (st : EnrollState) :
    (enroll_step enroll i uid st).enrolled + (enroll_step enroll i uid st).failed =
      st.enrolled + st.failed + 1 ∧
    (enroll_step enroll i uid st).aborted = st.aborted := by
  cases htv : target_succeeds enroll uid
  · obtain ⟨he, hf, _, _, habt⟩ := enroll_step_fail enroll i uid st htv
    refine ⟨?_, habt⟩
    rw [he, hf]; omega
  · rw [enroll_step_succ enroll i uid st htv]
    exact ⟨by simp; omega, rfl⟩

lemma bulk_loop_cons_abort (enroll : PyVal → Except String (Bool × Option String))
    (uid : PyVal) (rest : List PyVal) (i : Nat) (st : EnrollState)
    (h5 : 5 ≤ (enroll_step enroll i uid st).consec) :
    bulk_enroll_loop enroll (uid :: rest) i st =
      { enroll_step enroll i uid st with aborted := true } := by
  simp only [bulk_enroll_loop, if_pos h5]

lemma bulk_loop_cons_cont (enroll : PyVal → Except String (Bool × Option String))
    (uid : PyVal) (rest : List PyVal) (i : Nat) (st : EnrollState)
    (h5 : ¬ 5 ≤ (enroll_step enroll i uid st).consec) :
    bulk_enroll_loop enroll (uid :: rest) i st =
      bulk_enroll_loop enroll rest (i + 1) (enroll_step enroll i uid st) := by
  simp only [bulk_enroll_loop, if_neg h5]

/-- Unfolding of `bulk_enroll_users` for a valid course id and a non-empty
target list. -/
lemma bulk_enroll_users_ok (enroll : PyVal → Except String (Bool × Option String))
    (userIds : List PyVal) (m : Int) (hm : 0 < m) (hne : userIds ≠ []) :
    bulk_enroll_users enroll userIds (PyVal.intV m) =
      Except.ok ⟨userIds.length,
        (bulk_enroll_loop enroll userIds 0 ⟨0, 0, [], 0, false⟩).enrolled,
        (bulk_enroll_loop enroll userIds 0 ⟨0, 0, [], 0, false⟩).failed,
        (bulk_enroll_loop enroll userIds 0 ⟨0, 0, [], 0, false⟩).errors,
        (bulk_enroll_loop enroll userIds 0 ⟨0, 0, [], 0, false⟩).aborted⟩ := by
  have hcv : validate_positive_int (PyVal.intV m) "course_id" = Except.ok (PyVal.intV m) :=
    vpi_ok _ _ (by simp [isPyPosInt, isInstInt, pyIntVal, hm])
  simp only [bulk_enroll_users, hcv, if_neg hne]

/-- With every target failing, the loop aborts after exactly `5 - consec`
further failures: counters and error entries grow by exactly that much and
nothing records the remaining targets. -/
lemma bulk_loop_all_fail (enroll : PyVal → Except String (Bool × Option String)) :
    ∀ (l : List PyVal) (i : Nat) (st : EnrollState),
      (∀ uid ∈ l, target_succeeds enroll uid = false) →
      st.aborted = false → st.consec < 5 → 5 ≤ st.consec + l.length →
      (bulk_enroll_loop enroll l i st).aborted = true ∧
      (bulk_enroll_loop enroll l i st).enrolled = st.enrolled ∧
      (bulk_enroll_loop enroll l i st).failed = st.failed + (5 - st.consec) ∧
      (bulk_enroll_loop enroll l i st).errors.length =
        st.errors.length + (5 - st.consec) := by
  intro l
  induction l with
  | nil =>
    intro i st _ _ hlt hge
    simp only [List.length_nil, Nat.add_zero] at hge
    omega
  | cons uid rest ih =>
    intro i st hall hab hlt hge
    have hu : target_succeeds enroll uid = false := hall uid (List.mem_cons_self _ _)
    have hrest : ∀ u ∈ rest, target_succeeds enroll u = false :=
      fun u hu' => hall u (List.mem_cons_of_mem _ hu')
    obtain ⟨he, hf, hc, herr, habt⟩ := enroll_step_fail enroll i uid st hu
    by_cases h5 : 5 ≤ (enroll_step enroll i uid st).consec
    · rw [bulk_loop_cons_abort enroll uid rest i st h5]
      rw [hc] at h5
      refine ⟨rfl, ?_, ?_, ?_⟩
      · show (enroll_step enroll i uid st).enrolled = st.enrolled
        exact he
      · show (enroll_step enroll i uid st).failed = st.failed + (5 - st.consec)
        rw [hf]; omega
      · show (enroll_step enroll i uid st).errors.length =
          st.errors.length + (5 - st.consec)
        rw [herr]; omega
    · rw [bulk_loop_cons_cont enroll uid rest i st h5]
      rw [hc] at h5
      have hge' : 5 ≤ (enroll_step enroll i uid st).consec + rest.length := by
        rw [hc]
        simp only [List.length_cons] at hge
        omega
      obtain ⟨a1, a2, a3, a4⟩ := ih (i + 1) (enroll_step enroll i uid st) hrest
        (by rw [habt]; exact hab) (by rw [hc]; omega) hge'
      refine ⟨a1, ?_, ?_, ?_⟩
      · rw [a2, he]
      · rw [a3, hf, hc]; omega
      · rw [a4, herr, hc]; omega

/-- If the loop did not abort, every target was processed:
`enrolled + failed` grows by exactly the number of targets. -/
lemma bulk_loop_complete_of_not_aborted
    (enroll : PyVal → Except String (Bool × Option String)) :
    ∀ (l : List PyVal) (i : Nat) (st : EnrollState), st.aborted = false →
      (bulk_enroll_loop enroll l i st).aborted = false →
      (bulk_enroll_loop enroll l i st).enrolled +
          (bulk_enroll_loop enroll l i st).failed =
        st.enrolled + st.failed + l.length := by
  intro l
  induction l with
  | nil => intro i st _ _; simp [bulk_enroll_loop]
  | cons uid rest ih =>
    intro i st hab hres
    obtain ⟨htot, habt⟩ := enroll_step_total enroll i uid st
    by_cases h5 : 5 ≤ (enroll_step enroll i uid st).consec
    · rw [bulk_loop_cons_abort enroll uid rest i st h5] at hres
      cases hres
    · rw [bulk_loop_cons_cont enroll uid rest i st h5] at hres ⊢
      have := ih (i + 1) (enroll_step enroll i uid st) (by rw [habt]; exact hab) hres
      rw [this, htot]
      simp only [List.length_cons]
      omega

/-- The circuit-breaker trip predicate over the per-target success flags,
mirroring the loop's `consecutive_failures` counter. -/
def trips_breaker : List Bool → Nat → Bool
  | [], _ => false
  | b :: rest, c =>
    if b then trips_breaker rest 0
    else if 5 ≤ c + 1 then true else trips_breaker rest (c + 1)

/-- If the success flags never trip the breaker, the loop processes all
targets, never aborts, and `enrolled + failed` accounts for all of them. -/
lemma bulk_loop_no_trip (enroll : PyVal → Except String (Bool × Option String)) :
    ∀ (l : List PyVal) (i : Nat) (st : EnrollState), st.aborted = false →
      trips_breaker (l.map (target_succeeds enroll)) st.consec = false →
      (bulk_enroll_loop enroll l i st).aborted = false ∧
      (bulk_enroll_loop enroll l i st).enrolled +
          (bulk_enroll_loop enroll l i st).failed =
        st.enrolled + st.failed + l.length := by
  intro l
  induction l with
  | nil =>
    intro i st hab _
    exact ⟨hab, by simp [bulk_enroll_loop]⟩
  | cons uid rest ih =>
    intro i st hab htr
    simp only [List.map_cons, trips_breaker] at htr
    cases hs : target_succeeds enroll uid
    · rw [hs] at htr
      simp only [Bool.false_eq_true, if_false, ite_false] at htr
      by_cases hge : 5 ≤ st.consec + 1
      · rw [if_pos hge] at htr; cases htr
      · rw [if_neg hge] at htr
        obtain ⟨he, hf, hc, herr, habt⟩ := enroll_step_fail enroll i uid st hs
        have h5 : ¬ 5 ≤ (enroll_step enroll i uid st).consec := by rw [hc]; omega
        rw [bulk_loop_cons_cont enroll uid rest i st h5]
        obtain ⟨a1, a2⟩ := ih (i + 1) (enroll_step enroll i uid st)
          (by rw [habt]; exact hab) (by rw [hc]; exact htr)
        refine ⟨a1, ?_⟩
        rw [a2, he, hf]
        simp only [List.length_cons]
        omega
    · rw [hs] at htr
      simp only [if_true, ite_true] at htr
      have h5 : ¬ 5 ≤ (enroll_step enroll i uid st).consec := by
        rw [enroll_step_succ enroll i uid st hs]; simp
      rw [bulk_loop_cons_cont enroll uid rest i st h5]
      obtain ⟨a1, a2⟩ := ih (i + 1) (enroll_step enroll i uid st)
        (by rw [enroll_step_succ enroll i uid st hs]; exact hab)
        (by rw [enroll_step_succ enroll i uid st hs]; exact htr)
      refine ⟨a1, ?_⟩
      rw [a2, enroll_step_succ enroll i uid st hs]
      show st.enrolled + 1 + st.failed + rest.length =
        st.enrolled + st.failed + (uid :: rest).length
      simp only [List.length_cons]
      omega

/-! ## Helper lemmas: batch update loop -/

lemma batch_loop_cons_ok (upd : UpdateItem → Except String Unit)
    (it : UpdateItem) (rest : List UpdateItem) (i : Nat) (st : BatchState)
    (u : Unit) (h : batch_try upd i it = Except.ok u) :
    batch_update_loop upd (it :: rest) i st =
      batch_update_loop upd rest (i + 1) (batch_succ_state st it) := by
  simp only [batch_update_loop, h]

lemma batch_loop_cons_err_cont (upd : UpdateItem → Except String Unit)
    (it : UpdateItem) (rest : List UpdateItem) (i : Nat) (st : BatchState)
    (e : String) (h : batch_try upd i it = Except.error e) (hd : it.isDict = true)
    (h5 : ¬ 5 ≤ (batch_fail_state st it).consec) :
    batch_update_loop upd (it :: rest) i st =
      batch_update_loop upd rest (i + 1) (batch_fail_state st it) := by
  simp only [batch_update_loop, h, hd, if_true, if_neg h5]

lemma batch_loop_cons_err_abort (upd : UpdateItem → Except String Unit)
    (it : UpdateItem) (rest : List UpdateItem) (i : Nat) (st : BatchState)
    (e : String) (h : batch_try upd i it = Except.error e) (hd : it.isDict = true)
    (h5 : 5 ≤ (batch_fail_state st it).consec)
    (ds : List Detail) (hmr : mark_remaining rest = Except.ok ds) :
    batch_update_loop upd (it :: rest) i st =
      Except.ok { batch_fail_state st it with
        aborted := true, details := (batch_fail_state st it).details ++ ds } := by
  simp only [batch_update_loop, h, hd, if_true, if_pos h5, hmr]

lemma batch_loop_cons_err_abort_fail (upd : UpdateItem → Except String Unit)
    (it : UpdateItem) (rest : List UpdateItem) (i : Nat) (st : BatchState)
    (e : String) (h : batch_try upd i it = Except.error e) (hd : it.isDict = true)
    (h5 : 5 ≤ (batch_fail_state st it).consec)
    (e2 : String) (hmr : mark_remaining rest = Except.error e2) :
    batch_update_loop upd (it :: rest) i st = Except.error e2 := by
  simp only [batch_update_loop, h, hd, if_true, if_pos h5, hmr]

lemma batch_loop_cons_err_nondict (upd : UpdateItem → Except String Unit)
    (it : UpdateItem) (rest : List UpdateItem) (i : Nat) (st : BatchState)
    (e : String) (h : batch_try upd i it = Except.error e) (hd : it.isDict = false) :
    batch_update_loop upd (it :: rest) i st = Except.error "AttributeError: get" := by
  simp only [batch_update_loop, h, hd, Bool.false_eq_true, if_false]

/-- When the delegated update never succeeds, every iteration's `try` block
fails. -/
lemma batch_try_fails (upd : UpdateItem → Except String Unit) (i : Nat)
    (it : UpdateItem) (hfail : ∀ u : Unit, upd it ≠ Except.ok u) :
    ∃ e, batch_try upd i it = Except.error e := by
  unfold batch_try
  cases hd : it.isDict
  · simp only [Bool.false_eq_true, if_false]
    exact ⟨_, rfl⟩
  · simp only [if_true]
    cases hl : it.lessonId with
    | none => exact ⟨_, rfl⟩
    | some v =>
      by_cases ht : pyTruthy v = true
      · simp only [ht, if_true]
        cases hu : upd it with
        | error e => exact ⟨e, rfl⟩
        | ok u => exact absurd hu (hfail u)
      · simp only [ht, if_false]
        exact ⟨_, rfl⟩

/-- `mark_remaining` on all-dict input: one `not_attempted` entry per
remaining target. -/
lemma mark_remaining_ok (l : List UpdateItem) (hd : ∀ it ∈ l, it.isDict = true) :
    ∃ ds, mark_remaining l = Except.ok ds ∧ ds.length = l.length ∧
      countNA ds = l.length := by
  induction l with
  | nil => exact ⟨[], rfl, rfl, rfl⟩
  | cons it rest ih =>
    have hd1 : it.isDict = true := hd it (List.mem_cons_self _ _)
    obtain ⟨ds, h1, h2, h3⟩ := ih (fun u hu => hd u (List.mem_cons_of_mem _ hu))
    refine ⟨⟨(it.lessonId).getD PyVal.noneV, DetailStatus.notAttempted⟩ :: ds, ?_, ?_, ?_⟩
    · simp only [mark_remaining, hd1, if_true, h1]
    · simp [h2]
    · simp [countNA, List.countP_cons] at h3 ⊢
      omega

/-- Whatever `mark_remaining` returns consists solely of `not_attempted`
entries, one per remaining target. -/
lemma mark_remaining_spec : ∀ (l : List UpdateItem) (ds : List Detail),
    mark_remaining l = Except.ok ds → countNA ds = l.length ∧ ds.length = l.length := by
  intro l
  induction l with
  | nil =>
    intro ds h
    simp only [mark_remaining] at h
    cases h
    exact ⟨rfl, rfl⟩
  | cons it rest ih =>
    intro ds h
    simp only [mark_remaining] at h
    cases hd : it.isDict
    · rw [hd] at h; simp at h
    · rw [hd] at h
      simp only [if_true] at h
      cases hmr : mark_remaining rest with
      | error e => rw [hmr] at h; cases h
      | ok ds' =>
        rw [hmr] at h
        cases h
        obtain ⟨n1, n2⟩ := ih ds' hmr
        constructor
        · simp [countNA, List.countP_cons] at n1 ⊢
          omega
        · simp [n2]

lemma countNA_append (a b : List Detail) : countNA (a ++ b) = countNA a + countNA b :=
  List.countP_append _ _ _

lemma countNA_failed (x : PyVal) : countNA [⟨x, DetailStatus.failed⟩] = 0 := rfl

lemma countNA_success (x : PyVal) : countNA [⟨x, DetailStatus.success⟩] = 0 := rfl

/-- With every update failing on an all-dict list, the loop aborts after
exactly `5 - consec` further failures, records that many failed details,
and marks each remaining update `not_attempted`. -/
lemma batch_loop_all_fail (upd : UpdateItem → Except String Unit) :
    ∀ (l : List UpdateItem) (i : Nat) (st : BatchState),
      (∀ it ∈ l, it.isDict = true) →
      (∀ it ∈ l, ∀ u : Unit, upd it ≠ Except.ok u) →
      st.aborted = false → st.consec < 5 → 5 ≤ st.consec + l.length →
      ∃ st', batch_update_loop upd l i st = Except.ok st' ∧
        st'.aborted = true ∧ st'.successful = st.successful ∧
        st'.failed = st.failed + (5 - st.consec) ∧
        countNA st'.details = countNA st.details + (l.length - (5 - st.consec)) ∧
        st'.details.length = st.details.length + l.length := by
  intro l
  induction l with
  | nil =>
    intro i st _ _ _ hlt hge
    simp only [List.length_nil, Nat.add_zero] at hge
    omega
  | cons it rest ih =>
    intro i st hd hf hab hlt hge
    have hd1 : it.isDict = true := hd it (List.mem_cons_self _ _)
    have hdr : ∀ u ∈ rest, u.isDict = true := fun u hu => hd u (List.mem_cons_of_mem _ hu)
    have hfr : ∀ u ∈ rest, ∀ x : Unit, upd u ≠ Except.ok x :=
      fun u hu => hf u (List.mem_cons_of_mem _ hu)
    obtain ⟨e, he⟩ := batch_try_fails upd i it (hf it (List.mem_cons_self _ _))
    by_cases h5 : 5 ≤ (batch_fail_state st it).consec
    · have hc4 : st.consec + 1 = 5 := by
        have hc : (batch_fail_state st it).consec = st.consec + 1 := rfl
        omega
      obtain ⟨ds, hds, hlen, hna⟩ := mark_remaining_ok rest hdr
      rw [batch_loop_cons_err_abort upd it rest i st e he hd1 h5 ds hds]
      refine ⟨_, rfl, rfl, rfl, ?_, ?_, ?_⟩
      · show st.failed + 1 = st.failed + (5 - st.consec)
        omega
      · show countNA ((st.details ++
            [⟨(it.lessonId).getD (PyVal.strV "unknown"), DetailStatus.failed⟩]) ++ ds) =
          countNA st.details + ((it :: rest).length - (5 - st.consec))
        rw [countNA_append, countNA_append, countNA_failed, hna]
        simp only [List.length_cons]
        omega
      · show ((st.details ++
            [(⟨(it.lessonId).getD (PyVal.strV "unknown"), DetailStatus.failed⟩ : Detail)]) ++
              ds).length =
          st.details.length + (it :: rest).length
        rw [List.length_append, List.length_append, hlen]
        simp
        omega
    · have hc : (batch_fail_state st it).consec = st.consec + 1 := rfl
      rw [batch_loop_cons_err_cont upd it rest i st e he hd1 h5]
      obtain ⟨st', hst', a1, a2, a3, a4, a5⟩ := ih (i + 1) (batch_fail_state st it) hdr hfr
        (show st.aborted = false from hab)
        (by omega) (by simp only [List.length_cons] at hge; omega)
      refine ⟨st', hst', a1, ?_, ?_, ?_, ?_⟩
      · exact a2
      · rw [a3]
        show st.failed + 1 + (5 - (st.consec + 1)) = st.failed + (5 - st.consec)
        omega
      · rw [a4]
        show countNA (st.details ++
            [⟨(it.lessonId).getD (PyVal.strV "unknown"), DetailStatus.failed⟩]) +
            (rest.length - (5 - (st.consec + 1))) =
          countNA st.details + ((it :: rest).length - (5 - st.consec))
        rw [countNA_append, countNA_failed]
        simp only [List.length_cons]
        omega
      · rw [a5]
        show (st.details ++
            [(⟨(it.lessonId).getD (PyVal.strV "unknown"), DetailStatus.failed⟩ : Detail)]).length +
            rest.length = st.details.length + (it :: rest).length
        rw [List.length_append]
        simp
        omega

/-- Accounting invariant of the batch loop: whenever it returns a report
state, `successful + failed + not_attempted` accounts for every input. -/
lemma batch_loop_invariant (upd : UpdateItem → Except String Unit) :
    ∀ (l : List UpdateItem) (i : Nat) (st st' : BatchState),
      batch_update_loop upd l i st = Except.ok st' →
      st'.successful + st'.failed + countNA st'.details =
        st.successful + st.failed + countNA st.details + l.length := by
  intro l
  induction l with
  | nil =>
    intro i st st' h
    simp only [batch_update_loop] at h
    cases h
    simp
  | cons it rest ih =>
    intro i st st' h
    cases hot : batch_try upd i it with
    | ok u =>
      rw [batch_loop_cons_ok upd it rest i st u hot] at h
      rw [ih (i + 1) (batch_succ_state st it) st' h]
      show st.successful + 1 + st.failed +
          countNA (st.details ++ [⟨(it.lessonId).getD PyVal.noneV, DetailStatus.success⟩]) +
          rest.length =
        st.successful + st.failed + countNA st.details + (it :: rest).length
      rw [countNA_append, countNA_success]
      simp only [List.length_cons]
      omega
    | error e =>
      cases hd : it.isDict
      · rw [batch_loop_cons_err_nondict upd it rest i st e hot hd] at h
        cases h
      · by_cases h5 : 5 ≤ (batch_fail_state st it).consec
        · cases hmr : mark_remaining rest with
          | error e2 =>
            rw [batch_loop_cons_err_abort_fail upd it rest i st e hot hd h5 e2 hmr] at h
            cases h
          | ok ds =>
            rw [batch_loop_cons_err_abort upd it rest i st e hot hd h5 ds hmr] at h
            cases h
            obtain ⟨n1, n2⟩ := mark_remaining_spec rest ds hmr
            show st.successful + (st.failed + 1) +
                countNA ((st.details ++
                  [⟨(it.lessonId).getD (PyVal.strV "unknown"), DetailStatus.failed⟩]) ++ ds) =
              st.successful + st.failed + countNA st.details + (it :: rest).length
            rw [countNA_append, countNA_append, countNA_failed, n1]
            simp only [List.length_cons]
            omega
        · rw [batch_loop_cons_err_cont upd it rest i st e hot hd h5] at h
          rw [ih (i + 1) (batch_fail_state st it) st' h]
          show st.successful + (st.failed + 1) +
              countNA (st.details ++
                [⟨(it.lessonId).getD (PyVal.strV "unknown"), DetailStatus.failed⟩]) +
              rest.length =
            st.successful + st.failed + countNA st.details + (it :: rest).length
          rw [countNA_append, countNA_failed]
          simp only [List.length_cons]
          omega

/-- Unfolding of `batch_update_lesson_content` when the loop completes. -/
lemma batch_update_ok (upd : UpdateItem → Except String Unit)
    (updates : List UpdateItem) (hne : updates ≠ []) (st' : BatchState)
    (h : batch_update_loop upd updates 0 ⟨0, 0, [], 0, false⟩ = Except.ok st') :
    batch_update_lesson_content upd updates =
      Except.ok ⟨updates.length, st'.successful, st'.failed, st'.details, st'.aborted⟩ := by
  simp only [batch_update_lesson_content, if_neg hne, h]

lemma countNA_nil : countNA [] = 0 := rfl

/-- Further unfoldings of the two runners' wrappers. -/
lemma bulk_enroll_users_err_course (enroll : PyVal → Except String (Bool × Option String))
    (userIds : List PyVal) (courseId : PyVal) (e : String)
    (hcv : validate_positive_int courseId "course_id" = Except.error e) :
    bulk_enroll_users enroll userIds courseId = Except.error e := by
  simp only [bulk_enroll_users, hcv]

lemma bulk_enroll_users_err_empty (enroll : PyVal → Except String (Bool × Option String))
    (courseId : PyVal) (v : PyVal)
    (hcv : validate_positive_int courseId "course_id" = Except.ok v) :
    bulk_enroll_users enroll [] courseId = Except.error "user_ids cannot be empty" := by
  simp [bulk_enroll_users, hcv]

lemma bulk_enroll_users_ok2 (enroll : PyVal → Except String (Bool × Option String))
    (userIds : List PyVal) (courseId : PyVal) (v : PyVal)
    (hcv : validate_positive_int courseId "course_id" = Except.ok v)
    (hne : userIds ≠ []) :
    bulk_enroll_users enroll userIds courseId =
      Except.ok ⟨userIds.length,
        (bulk_enroll_loop enroll userIds 0 ⟨0, 0, [], 0, false⟩).enrolled,
        (bulk_enroll_loop enroll userIds 0 ⟨0, 0, [], 0, false⟩).failed,
        (bulk_enroll_loop enroll userIds 0 ⟨0, 0, [], 0, false⟩).errors,
        (bulk_enroll_loop enroll userIds 0 ⟨0, 0, [], 0, false⟩).aborted⟩ := by
  simp only [bulk_enroll_users, hcv, if_neg hne]

lemma batch_update_empty (upd : UpdateItem → Except String Unit) :
    batch_update_lesson_content upd [] = Except.error "updates cannot be empty" := rfl

lemma batch_update_err (upd : UpdateItem → Except String Unit)
    (updates : List UpdateItem) (hne : updates ≠ []) (e : String)
    (hloop : batch_update_loop upd updates 0 ⟨0, 0, [], 0, false⟩ = Except.error e) :
    batch_update_lesson_content upd updates = Except.error e := by
  simp only [batch_update_lesson_content, if_neg hne, hloop]

/-! ## Scenario stubs for the bulk runner -/

/-- Delegated enrollment stubbed to succeed (the remote call succeeds and
`enroll_user` returns `enrolled = True`). -/
def stub_enroll : PyVal → Except String (Bool × Option String) :=
  fun _ => Except.ok (true, none)

/-- Delegated enrollment stubbed to always raise. -/
def fail_enroll : PyVal → Except String (Bool × Option String) :=
  fun _ => Except.error "Connection failed"

/-- Delegated enrollment stubbed to return `enrolled = False` with an error
entry. -/
def flag_fail_enroll : PyVal → Except String (Bool × Option String) :=
  fun _ => Except.ok (false, some "nope")

/-- Delegated lesson update stubbed to succeed. -/
def ok_upd : UpdateItem → Except String Unit := fun _ => Except.ok ()

/-- Delegated lesson update stubbed to always raise. -/
def fail_upd : UpdateItem → Except String Unit := fun _ => Except.error "boom"

/-- The spec's end-to-end scenario 3 target list `[1, 2, -3, 4, "x"]`. -/
def scenario_targets : List PyVal :=
  [PyVal.intV 1, PyVal.intV 2, PyVal.intV (-3), PyVal.intV 4, PyVal.strV "x"]

/-! ## Theorems: circuit breaker (C3, C8) and accounting (C4), scenario (C9) -/

/-- C3 counterexample: running `bulk_enroll_users` over six targets that all
fail aborts with `aborted = true` and `failed = 5`, but the remaining sixth
target is not classified as not-attempted: the report records exactly the
five failures and carries no entry of any kind for target 6 (the report has
no not-attempted classification at all). -/
theorem bulk_enroll_abort_drops_remaining :
    bulk_enroll_users fail_enroll
      [PyVal.intV 1, PyVal.intV 2, PyVal.intV 3, PyVal.intV 4, PyVal.intV 5, PyVal.intV 6]
      (PyVal.intV 1) =
      Except.ok ⟨6, 0, 5,
        [(PyVal.intV 1, "Connection failed"), (PyVal.intV 2, "Connection failed"),
         (PyVal.intV 3, "Connection failed"), (PyVal.intV 4, "Connection failed"),
         (PyVal.intV 5, "Connection failed")], true⟩ ∧
    List.all
      [(PyVal.intV 1, "Connection failed"), (PyVal.intV 2, "Connection failed"),
       (PyVal.intV 3, "Connection failed"), (PyVal.intV 4, "Connection failed"),
       (PyVal.intV 5, "Connection failed")]
      (fun e => !(e.1 = PyVal.intV 6)) = true :=
  ⟨rfl, by decide⟩

/-- C3 amended: with every per-target attempt failing and at least five
targets, both runners abort after exactly 5 consecutive failures (not
before, not after): `aborted = true`, `failed = 5`, nothing succeeded.
`batch_update_lesson_content` additionally records the remaining `N - 5`
targets as `not_attempted` with an explanatory message, while
`bulk_enroll_users` stops without recording anything for them. -/
theorem bulk_abort_after_exactly_five
    (enroll : PyVal → Except String (Bool × Option String)) (userIds : List PyVal)
    (hfail : ∀ uid ∈ userIds, target_succeeds enroll uid = false)
    (h5 : 5 ≤ userIds.length)
    (upd : UpdateItem → Except String Unit) (updates : List UpdateItem)
    (hdict : ∀ it ∈ updates, it.isDict = true)
    (hupd : ∀ it ∈ updates, ∀ u : Unit, upd it ≠ Except.ok u)
    (h5b : 5 ≤ updates.length) :
    (bulk_enroll_users enroll userIds (PyVal.intV 1)).map
        (fun r => (r.aborted, r.enrolled, r.failed, r.errors.length, r.totalUsers)) =
      Except.ok (true, 0, 5, 5, userIds.length) ∧
    (batch_update_lesson_content upd updates).map
        (fun r => (r.aborted, r.successful, r.failed, countNA r.details,
          r.details.length, r.totalUpdates)) =
      Except.ok (true, 0, 5, updates.length - 5, updates.length, updates.length) := by
  have hne : userIds ≠ [] := by intro h; rw [h] at h5; simp at h5
  have hne2 : updates ≠ [] := by intro h; rw [h] at h5b; simp at h5b
  constructor
  · rw [bulk_enroll_users_ok enroll userIds 1 (by decide) hne]
    obtain ⟨a1, a2, a3, a4⟩ := bulk_loop_all_fail enroll userIds 0 ⟨0, 0, [], 0, false⟩
      hfail rfl (by decide) (by show 5 ≤ 0 + userIds.length; omega)
    simp only [Except.map]
    simp [a1, a2, a3, a4]
  · obtain ⟨st', hst', b1, b2, b3, b4, b5⟩ := batch_loop_all_fail upd updates 0
      ⟨0, 0, [], 0, false⟩ hdict hupd rfl (by decide)
      (by show 5 ≤ 0 + updates.length; omega)
    rw [batch_update_ok upd updates hne2 st' hst']
    simp only [Except.map]
    simp [b1, b2, b3, b4, b5, countNA_nil]

/-- Witness for C3 amended at five all-failing enrollment targets and five
all-failing dict updates. -/
theorem bulk_abort_after_exactly_five_witness :
    (bulk_enroll_users fail_enroll
        [PyVal.intV 1, PyVal.intV 2, PyVal.intV 3, PyVal.intV 4, PyVal.intV 5]
        (PyVal.intV 1)).map
        (fun r => (r.aborted, r.enrolled, r.failed, r.errors.length, r.totalUsers)) =
      Except.ok (true, 0, 5, 5, 5) ∧
    (batch_update_lesson_content fail_upd
        [⟨true, some (PyVal.intV 1)⟩, ⟨true, some (PyVal.intV 2)⟩,
         ⟨true, some (PyVal.intV 3)⟩, ⟨true, some (PyVal.intV 4)⟩,
         ⟨true, some (PyVal.intV 5)⟩]).map
        (fun r => (r.aborted, r.successful, r.failed, countNA r.details,
          r.details.length, r.totalUpdates)) =
      Except.ok (true, 0, 5, 0, 5, 5) := by
  have h := bulk_abort_after_exactly_five fail_enroll
    [PyVal.intV 1, PyVal.intV 2, PyVal.intV 3, PyVal.intV 4, PyVal.intV 5]
    (by decide) (by decide) fail_upd
    [⟨true, some (PyVal.intV 1)⟩, ⟨true, some (PyVal.intV 2)⟩,
     ⟨true, some (PyVal.intV 3)⟩, ⟨true, some (PyVal.intV 4)⟩,
     ⟨true, some (PyVal.intV 5)⟩]
    (by decide) (fun it _ u hok => Except.noConfusion hok) (by decide)
  exact ⟨h.1, h.2⟩

/-- C4 counterexample: over seven targets whose enrollment returns
`enrolled = False`, `bulk_enroll_users` aborts with `enrolled = 0` and
`failed = 5`, and the report records nothing for the remaining two targets:
`enrolled + failed` (plus the zero not-attempted entries the report is able
to carry) does not equal `total`, so the two unprocessed targets are
silently dropped from the accounting. -/
theorem bulk_enroll_accounting_violated :
    bulk_enroll_users flag_fail_enroll
      [PyVal.intV 1, PyVal.intV 2, PyVal.intV 3, PyVal.intV 4, PyVal.intV 5,
       PyVal.intV 6, PyVal.intV 7] (PyVal.intV 1) =
      Except.ok ⟨7, 0, 5,
        [(PyVal.intV 1, "nope"), (PyVal.intV 2, "nope"), (PyVal.intV 3, "nope"),
         (PyVal.intV 4, "nope"), (PyVal.intV 5, "nope")], true⟩ ∧
    (bulk_enroll_users flag_fail_enroll
      [PyVal.intV 1, PyVal.intV 2, PyVal.intV 3, PyVal.intV 4, PyVal.intV 5,
       PyVal.intV 6, PyVal.intV 7] (PyVal.intV 1)).map
        (fun r => (decide (r.enrolled + r.failed = r.totalUsers), r.aborted)) =
      Except.ok (false, true) :=
  ⟨rfl, rfl⟩

/-- C4 amended: `batch_update_lesson_content` satisfies the accounting
invariant `successful + failed + not_attempted = total` on every run that
returns a report (on abort the remaining targets are recorded as
`not_attempted`); `bulk_enroll_users` satisfies
`enrolled + failed = total` only on runs that do not abort — its report
has no not-attempted classification, so aborted runs drop the remaining
targets from the accounting. -/
theorem bulk_report_accounting :
    (∀ (upd : UpdateItem → Except String Unit) (updates : List UpdateItem)
      (r : BatchReport), batch_update_lesson_content upd updates = Except.ok r →
      r.successful + r.failed + countNA r.details = r.totalUpdates) ∧
    (∀ (enroll : PyVal → Except String (Bool × Option String)) (userIds : List PyVal)
      (courseId : PyVal) (r : EnrollReport),
      bulk_enroll_users enroll userIds courseId = Except.ok r → r.aborted = false →
      r.enrolled + r.failed = r.totalUsers) := by
  constructor
  · intro upd updates r h
    by_cases hne : updates = []
    · subst hne
      rw [batch_update_empty upd] at h
      cases h
    · cases hloop : batch_update_loop upd updates 0 ⟨0, 0, [], 0, false⟩ with
      | error e =>
        rw [batch_update_err upd updates hne e hloop] at h
        cases h
      | ok st' =>
        rw [batch_update_ok upd updates hne st' hloop] at h
        cases h
        have h2 := batch_loop_invariant upd updates 0 ⟨0, 0, [], 0, false⟩ st' hloop
        simpa [countNA_nil] using h2
  · intro enroll userIds courseId r h hab
    cases hcv : validate_positive_int courseId "course_id" with
    | error e =>
      rw [bulk_enroll_users_err_course enroll userIds courseId e hcv] at h
      cases h
    | ok v =>
      by_cases hne : userIds = []
      · subst hne
        rw [bulk_enroll_users_err_empty enroll courseId v hcv] at h
        cases h
      · rw [bulk_enroll_users_ok2 enroll userIds courseId v hcv hne] at h
        cases h
        have h2 := bulk_loop_complete_of_not_aborted enroll userIds 0
          ⟨0, 0, [], 0, false⟩ rfl hab
        simpa using h2

/-- Witness for C4 amended: a one-target successful batch run satisfies the
accounting invariant, and a one-target non-aborted enrollment run accounts
for its target. -/
theorem bulk_report_accounting_witness :
    batch_update_lesson_content ok_upd [⟨true, some (PyVal.intV 5)⟩] =
      Except.ok ⟨1, 1, 0, [⟨PyVal.intV 5, DetailStatus.success⟩], false⟩ ∧
    (1 : Nat) + 0 + countNA [⟨PyVal.intV 5, DetailStatus.success⟩] = 1 ∧
    bulk_enroll_users stub_enroll [PyVal.intV 1] (PyVal.intV 1) =
      Except.ok ⟨1, 1, 0, [], false⟩ ∧
    (1 : Nat) + 0 = 1 := by
  refine ⟨rfl, ?_, rfl, ?_⟩
  · exact bulk_report_accounting.1 ok_upd [⟨true, some (PyVal.intV 5)⟩]
      ⟨1, 1, 0, [⟨PyVal.intV 5, DetailStatus.success⟩], false⟩ rfl
  · exact bulk_report_accounting.2 stub_enroll [PyVal.intV 1] (PyVal.intV 1)
      ⟨1, 1, 0, [], false⟩ rfl rfl

/-- C8: if the per-target success flags never reach 5 consecutive failures,
`bulk_enroll_users` processes all `N` targets and does not set `aborted`
(`enrolled + failed = N`); and every successful per-target operation resets
the consecutive-failure counter to zero. -/
theorem bulk_no_abort_when_no_five_consecutive
    (enroll : PyVal → Except String (Bool × Option String)) (userIds : List PyVal)
    (m : Int) (hm : 0 < m) (hne : userIds ≠ [])
    (hflags : trips_breaker (userIds.map (target_succeeds enroll)) 0 = false) :
    (bulk_enroll_users enroll userIds (PyVal.intV m)).map
        (fun r => (r.aborted, r.enrolled + r.failed, r.totalUsers)) =
      Except.ok (false, userIds.length, userIds.length) ∧
    (∀ (i : Nat) (uid : PyVal) (st : EnrollState), target_succeeds enroll uid = true →
      (enroll_step enroll i uid st).consec = 0) := by
  constructor
  · rw [bulk_enroll_users_ok enroll userIds m hm hne]
    obtain ⟨a1, a2⟩ := bulk_loop_no_trip enroll userIds 0 ⟨0, 0, [], 0, false⟩ rfl hflags
    simp only [Except.map]
    simp [a1, a2]
  · intro i uid st h
    rw [enroll_step_succ enroll i uid st h]

/-- Witness for C8 at targets `[1, -1, 2]` (one failure between two
successes) with the remote call stubbed to succeed, plus a concrete
counter reset from `consec = 4` to 0. -/
theorem bulk_no_abort_when_no_five_consecutive_witness :
    (bulk_enroll_users stub_enroll [PyVal.intV 1, PyVal.intV (-1), PyVal.intV 2]
        (PyVal.intV 1)).map
        (fun r => (r.aborted, r.enrolled + r.failed, r.totalUsers)) =
      Except.ok (false, 3, 3) ∧
    (enroll_step stub_enroll 0 (PyVal.intV 7) ⟨0, 3, [], 4, false⟩).consec = 0 := by
  have h := bulk_no_abort_when_no_five_consecutive stub_enroll
    [PyVal.intV 1, PyVal.intV (-1), PyVal.intV 2] 1 (by decide) (by decide) (by decide)
  exact ⟨h.1, h.2 0 (PyVal.intV 7) ⟨0, 3, [], 4, false⟩ (by decide)⟩

/-- C9 counterexample: on the scenario list `[1, 2, -3, 4, "x"]` with the
remote call stubbed to succeed, the run yields `enrolled = 3` (for 1, 2 and
4), not `succeeded = 2` as claimed. -/
theorem bulk_enroll_scenario_not_two_succeeded :
    (bulk_enroll_users stub_enroll scenario_targets (PyVal.intV 1)).map
        (fun r => (r.enrolled, r.failed, r.aborted)) = Except.ok (3, 2, false) ∧
    (bulk_enroll_users stub_enroll scenario_targets (PyVal.intV 1)).map
        (fun r => (r.enrolled, r.failed, r.aborted)) ≠ Except.ok (2, 2, false) := by
  refine ⟨rfl, fun h => ?_⟩
  have h2 := (rfl : (bulk_enroll_users stub_enroll scenario_targets (PyVal.intV 1)).map
      (fun r => (r.enrolled, r.failed, r.aborted)) = Except.ok (3, 2, false)).symm.trans h
  exact absurd (Except.ok.inj h2) (by decide)

/-- C9 amended: the scenario run records the two validation failures (for
`-3` and `"x"`) as failures with their messages and continues, succeeds on
the three positive targets, and does not abort: `enrolled = 3`,
`failed = 2`, `aborted = false`. -/
theorem bulk_enroll_scenario_report :
    bulk_enroll_users stub_enroll scenario_targets (PyVal.intV 1) =
      Except.ok ⟨5, 3, 2,
        [(PyVal.intV (-3), "user_ids[2] must be a positive integer, got -3"),
         (PyVal.strV "x", "user_ids[4] must be a positive integer, got x")], false⟩ :=
  rfl
